import Mathlib

/-!
Verification of the sprt lyric synchronization engine.

Shallow embedding of the Go sources:
* `domain/usecase/lyric_usecase.go` / the channel-based variant of the same
  use case (`GetLyrics`, `GetLyricChannel`),
* `domain/usecase/auth_usecase.go` (`RefreshToken`),
* `domain/entity` (`SpotifyAuth`).

Pure functions are translated to Lean functions; the concurrent engine
(`GetLyricChannel`) is translated to an explicit state machine: the shared
mutable variables of the two goroutines become a record, the coalescing
internal signal channel becomes a `pending` flag, and every scheduling
decision (a poll tick together with the results of the two HTTP calls it
makes, a display-loop wake-up, timer fire, cancellation, and each loop
observing cancellation) becomes an explicit event.  Sends on the buffered
output channel are collected into a list of emitted updates.
-/

namespace Sprt

/-- `Line` from lyric_usecase.go: a single timed lyric line. -/
structure Line where
  startTimeMs : Int
  endTimeMs : Int
  text : String
deriving DecidableEq, Repr

/-- `Lyrics` from lyric_usecase.go. -/
structure Lyrics where
  id : Int
  name : String
  artist : String
  album : String
  language : String
  synced : Bool
  lines : List Line
deriving DecidableEq, Repr

/-- `LyricUpdate` from lyric_usecase.go: one event on the output channel. -/
structure LyricUpdate where
  lyrics : Option Lyrics
  line : Option Line
  lineIndex : Int
  text : String
  isError : Bool
  errorMsg : String
deriving DecidableEq, Repr

/-- `CurrentlyPlaying` from player_usecase.go (the playback snapshot). -/
structure CurrentlyPlaying where
  isPlaying : Bool
  progressMs : Int
  title : String
  artist : String
  album : String
  durationMs : Int
deriving DecidableEq, Repr

/-- One candidate of the lrclib.net search response (`libResponse` in
GetLyrics).  The unused `duration`/`instrumental` fields are omitted. -/
structure LibResponse where
  id : Int
  name : String
  trackName : String
  artistName : String
  albumName : String
  plainLyrics : Option String
  syncedLyrics : Option String
deriving DecidableEq, Repr

/-! ### LRC timestamp scanning, modeling `fmt.Sscanf(ts, "%d:%d.%d", ...)` -/

/-- Digit string to number, most significant first. -/
def digitsToNat (cs : List Char) : Nat :=
  cs.foldl (fun a c => a * 10 + (c.toNat - '0'.toNat)) 0

/-- Read a maximal nonempty run of decimal digits. -/
def readDigits (cs : List Char) : Option (Nat × List Char) :=
  let ds := cs.takeWhile Char.isDigit
  if ds.isEmpty then none
  else some (digitsToNat ds, cs.dropWhile Char.isDigit)

/-- A `%d` verb of Go's scanner: leading spaces are discarded, then an
optional sign and a nonempty digit run are consumed. -/
def readGoInt (cs : List Char) : Option (Int × List Char) :=
  let cs := cs.dropWhile (fun c => c = ' ' ∨ c = '\t')
  match cs with
  | '-' :: rest => (readDigits rest).map (fun p => (-(p.1 : Int), p.2))
  | '+' :: rest => (readDigits rest).map (fun p => ((p.1 : Int), p.2))
  | _ => (readDigits cs).map (fun p => ((p.1 : Int), p.2))

/-- `fmt.Sscanf(timestamp, "%d:%d.%d", &minutes, &seconds, &milliseconds)`:
three integers separated by the literal characters `:` and `.`; trailing
input is ignored; any failure makes the whole scan fail. -/
def sscanfTimestamp (cs : List Char) : Option (Int × Int × Int) :=
  match readGoInt cs with
  | none => none
  | some (m, rest) =>
    match rest with
    | ':' :: rest2 =>
      match readGoInt rest2 with
      | none => none
      | some (s, rest3) =>
        match rest3 with
        | '.' :: rest4 =>
          match readGoInt rest4 with
          | none => none
          | some (c, _) => some (m, s, c)
        | _ => none
    | _ => none

/-! ### LRC line parsing (the loop body of GetLyrics)

The Go code works on strings byte by byte; the embedding works on the
character list of the string, which coincides for the ASCII inputs of the
LRC format.  `strings.Split`, `strings.TrimSpace`, `strings.HasPrefix` and
`strings.Index` are spelled out as structurally recursive list functions. -/

/-- The whitespace test of `strings.TrimSpace`, restricted to ASCII. -/
def isSpaceChar (c : Char) : Bool := c = ' ' || c = '\t' || c = '\n' || c = '\r'

/-- `strings.TrimSpace`: drop leading and trailing whitespace. -/
def trimChars (cs : List Char) : List Char :=
  ((cs.dropWhile isSpaceChar).reverse.dropWhile isSpaceChar).reverse

/-- `strings.Split(s, "\n")`: split at every newline, keeping empty parts. -/
def splitLines : List Char → List (List Char)
  | [] => [[]]
  | c :: rest =>
    if c = '\n' then [] :: splitLines rest
    else
      match splitLines rest with
      | [] => [[c]]
      | h :: t => (c :: h) :: t

/-- One iteration of the LRC parsing loop of `GetLyrics`: returns the parsed
line, or `none` when the input line is skipped (blank line, no leading `[`,
no closing `]`, or unscannable timestamp).  The `endTimeMs` is the
placeholder 0, back-filled afterwards. -/
def parseOneLine (line : List Char) : Option Line :=
  if trimChars line = [] then none
  else
    match line with
    | '[' :: _ =>
      match line.findIdx? (fun c => c = ']') with
      | none => none
      | some closeBracket =>
        let timestamp := (line.take closeBracket).drop 1
        let text := line.drop (closeBracket + 1)
        match sscanfTimestamp timestamp with
        | none => none
        | some (minutes, seconds, milliseconds) =>
          some { startTimeMs := minutes * 60 * 1000 + seconds * 1000 + milliseconds * 10,
                 endTimeMs := 0,
                 text := String.mk text }
    | _ => none

/-- The end-time back-filling pass of `GetLyrics`: every line's `endTimeMs`
becomes the next line's `startTimeMs`; the final line gets
`startTimeMs + 5000`. -/
def backfillEndTimes : List Line → List Line
  | [] => []
  | [l] => [{ l with endTimeMs := l.startTimeMs + 5000 }]
  | l :: l2 :: rest => { l with endTimeMs := l2.startTimeMs } :: backfillEndTimes (l2 :: rest)

/-- The full LRC parse of `GetLyrics`: split on newlines, parse each line
(skipping malformed ones), then back-fill end times. -/
def parseLyricLines (s : String) : List Line :=
  backfillEndTimes ((splitLines s.data).filterMap parseOneLine)

/-- Construction of the `Lyrics` value from the selected lrclib candidate in
`GetLyrics` (the `Language` field is never assigned, keeping Go's zero
value `""`; `plainLyrics` is never consulted). -/
def buildLyrics (r : LibResponse) : Lyrics :=
  { id := r.id
    name := r.name
    artist := r.artistName
    album := r.albumName
    language := ""
    synced := r.syncedLyrics.isSome
    lines := match r.syncedLyrics with
             | some s => parseLyricLines s
             | none => [] }

/-- `GetLyrics` from lyric_usecase.go.  The cache map is passed and returned
explicitly; the whole HTTP request / status check / JSON unmarshal chain is
abstracted as `net`, the provider's answer for this call.  The final `Bool`
records whether a network fetch was performed. -/
def GetLyrics (cache : String → Option Lyrics) (artist title album : String)
    (net : Except String (List LibResponse)) :
    Except String Lyrics × (String → Option Lyrics) × Bool :=
  let cacheKey := artist ++ "|" ++ title
  match cache cacheKey with
  | some cached => (Except.ok cached, cache, false)
  | none =>
    match net with
    | Except.error e => (Except.error e, cache, true)
    | Except.ok [] =>
      (Except.error ("no lyrics found for " ++ title ++ " by " ++ artist), cache, true)
    | Except.ok (r0 :: rest) =>
      let selected := ((r0 :: rest).find? (fun r => r.syncedLyrics.isSome)).getD r0
      let ly := buildLyrics selected
      (Except.ok ly, fun k => if k = cacheKey then some ly else cache k, true)

/-- Spec-side refinement definition, following the spec's words only (not
the source): a timestamp matching "the exact two-digit [mm:ss.xx] pattern" —
exactly two digits, a colon, two digits, a dot, two digits. -/
def exactTwoDigitTimestamp (s : String) : Bool :=
  match s.data with
  | [m1, m2, c, s1, s2, d, x1, x2] =>
    m1.isDigit && m2.isDigit && (c == ':') && s1.isDigit && s2.isDigit &&
      (d == '.') && x1.isDigit && x2.isDigit
  | _ => false

/-! ### The line search of the display loop

`GetLyricChannel`'s display loop (and its copy before the loop) scans the
lines with a for-range loop over `lyrics.Lines`: if the current line's
interval contains the progress, set `currentLineIndex = i` and break; else
if the line starts after the progress, break (keeping the previous value);
else set `currentLineIndex = i` and continue. -/

/-- The interval test `line.StartTimeMs <= p && p < line.EndTimeMs`. -/
def containsP (l : Line) (p : Int) : Prop := l.startTimeMs ≤ p ∧ p < l.endTimeMs

instance (l : Line) (p : Int) : Decidable (containsP l p) :=
  inferInstanceAs (Decidable (l.startTimeMs ≤ p ∧ p < l.endTimeMs))

/-- The loop body: `i` is the index of the head of the remaining list, `acc`
the current value of `currentLineIndex`. -/
def findLineIndexAux (p : Int) : List Line → Nat → Nat → Nat
  | [], _, acc => acc
  | l :: rest, i, acc =>
    if containsP l p then i
    else if p < l.startTimeMs then acc
    else findLineIndexAux p rest (i + 1) i

/-- The whole scan, starting from `currentLineIndex = 0`. -/
def findLineIndex (lines : List Line) (p : Int) : Nat :=
  findLineIndexAux p lines 0 0

/-! ### The engine state machine (`GetLyricChannel`)

Shared state of the two goroutines plus the bookkeeping the claims need
(`closeCount` counts executions of the deferred `close(updateCh)`;
`fetchCount` counts invocations of `l.GetLyrics`). -/

structure EngineState where
  /-- `currentSong`, the last-seen track title. -/
  currentSong : String
  /-- the shared `lyrics` variable (`none` = Go `nil` after a failed fetch). -/
  lyr : Option Lyrics
  /-- `currentProgressMs`. -/
  progressMs : Int
  /-- `activeIndex`, the index of the last emitted line (sentinel -1). -/
  activeIndex : Int
  /-- whether `internalUpdateCh` (capacity 1, coalescing) holds a signal. -/
  pending : Bool
  /-- whether the cancellation context has fired. -/
  cancelled : Bool
  /-- whether the poll goroutine is still running. -/
  pollAlive : Bool
  /-- whether the display goroutine is still running. -/
  displayAlive : Bool
  /-- number of times `close(updateCh)` has run. -/
  closeCount : Nat
  /-- number of `GetLyrics` invocations so far. -/
  fetchCount : Nat
deriving DecidableEq, Repr

/-- Scheduling events.  `pollTick` carries the results of the two calls the
poll iteration may make (snapshot fetch and lyric fetch); `wake` is the
display loop receiving from `internalUpdateCh`; `timerSignal` is the
`time.AfterFunc` callback's non-blocking send; `pollExit`/`displayExit` are
the loops observing `ctx.Done()`. -/
inductive Ev where
  | pollTick (snap : Except String CurrentlyPlaying) (fetch : Except String Lyrics)
  | wake
  | timerSignal
  | cancel
  | pollExit
  | displayExit

/-- The error update of `GetCurrentlyPlayingDetails` failures. -/
def trackErrUpdate (e : String) : LyricUpdate :=
  { lyrics := none, line := none, lineIndex := 0, text := "",
    isError := true, errorMsg := "Error getting track: " ++ e }

/-- The error update of a failed lyric fetch inside the poll loop. -/
def pollLyricsErrUpdate (e : String) : LyricUpdate :=
  { lyrics := none, line := none, lineIndex := 0, text := "",
    isError := true, errorMsg := "Error getting lyrics: " ++ e }

/-- The error update of the initial lyric fetch before the loops start. -/
def initLyricsErrUpdate (title artist e : String) : LyricUpdate :=
  { lyrics := none, line := none, lineIndex := 0, text := "",
    isError := true,
    errorMsg := "No lyrics found for " ++ title ++ " by " ++ artist ++ ": " ++ e }

/-- The non-error "no lyrics" text update of the display loop. -/
def noLyricsUpdate : LyricUpdate :=
  { lyrics := none, line := none, lineIndex := 0, text := "No lyrics to display.",
    isError := false, errorMsg := "" }

/-- The line update sent on an index change (text padded with six spaces on
each side, as in `fmt.Sprintf("      %s      ", line.Text)`). -/
def lineUpdateOf (ly : Lyrics) (i : Nat) (l : Line) : LyricUpdate :=
  { lyrics := some ly, line := some l, lineIndex := (i : Int),
    text := "      " ++ l.text ++ "      ", isError := false, errorMsg := "" }

/-- The start of `GetLyricChannel` before the two loops: the initial
snapshot fetch (whose failure emits an error and returns, running the
deferred `close`), the initial lyric fetch (whose failure emits an error
but continues with `lyrics = nil`), and the initial signal on
`internalUpdateCh`.  Returns the state the loops start from and the updates
emitted so far.  In the aborted state the untouched Go locals keep their
initialization values. -/
def initEngine (startTimeMs : Int) (snap0 : Except String CurrentlyPlaying)
    (fetch0 : Except String Lyrics) : EngineState × List LyricUpdate :=
  match snap0 with
  | Except.error e =>
    ({ currentSong := "", lyr := none, progressMs := startTimeMs, activeIndex := -1,
       pending := false, cancelled := false, pollAlive := false, displayAlive := false,
       closeCount := 1, fetchCount := 0 },
     [trackErrUpdate e])
  | Except.ok tr =>
    match fetch0 with
    | Except.error e =>
      ({ currentSong := tr.title, lyr := none, progressMs := startTimeMs, activeIndex := -1,
         pending := true, cancelled := false, pollAlive := true, displayAlive := true,
         closeCount := 0, fetchCount := 1 },
       [initLyricsErrUpdate tr.title tr.artist e])
    | Except.ok ly =>
      ({ currentSong := tr.title, lyr := some ly, progressMs := startTimeMs, activeIndex := -1,
         pending := true, cancelled := false, pollAlive := true, displayAlive := true,
         closeCount := 0, fetchCount := 1 },
       [])

/-- One scheduling step of the engine.  An event that is not enabled in the
given state (a tick of a dead poll loop, a wake-up without a pending signal,
an exit before cancellation) changes nothing, so runs over arbitrary event
lists are exactly the interleavings the goroutines can exhibit. -/
def stepE (st : EngineState) (ev : Ev) : EngineState × List LyricUpdate :=
  match ev with
  | Ev.cancel => ({ st with cancelled := true }, [])
  | Ev.timerSignal => ({ st with pending := true }, [])
  | Ev.pollExit =>
    if st.pollAlive && st.cancelled then ({ st with pollAlive := false }, [])
    else (st, [])
  | Ev.displayExit =>
    if st.displayAlive && st.cancelled then
      ({ st with displayAlive := false, closeCount := st.closeCount + 1 }, [])
    else (st, [])
  | Ev.pollTick snap fetch =>
    if st.pollAlive then
      match snap with
      | Except.error e => (st, [trackErrUpdate e])
      | Except.ok tr =>
        if tr.title ≠ st.currentSong then
          match fetch with
          | Except.error e =>
            ({ st with currentSong := tr.title, lyr := none,
                       fetchCount := st.fetchCount + 1 },
             [pollLyricsErrUpdate e])
          | Except.ok ly =>
            ({ st with currentSong := tr.title, lyr := some ly,
                       fetchCount := st.fetchCount + 1,
                       progressMs := tr.progressMs, pending := true },
             [])
        else
          ({ st with progressMs := tr.progressMs, pending := true }, [])
    else (st, [])
  | Ev.wake =>
    if st.displayAlive && st.pending then
      let st1 := { st with pending := false }
      match st.lyr with
      | none => (st1, [noLyricsUpdate])
      | some ly =>
        if ly.lines.isEmpty then (st1, [noLyricsUpdate])
        else
          let idx := findLineIndex ly.lines st.progressMs
          if (idx : Int) = st.activeIndex then (st1, [])
          else if h : idx < ly.lines.length then
            ({ st1 with activeIndex := (idx : Int) },
             [lineUpdateOf ly idx (ly.lines.get ⟨idx, h⟩)])
          else (st1, [])
    else (st, [])

/-- Run a whole schedule, concatenating the emitted updates. -/
def runE : EngineState → List Ev → EngineState × List LyricUpdate
  | st, [] => (st, [])
  | st, ev :: rest =>
    ((runE (stepE st ev).1 rest).1, (stepE st ev).2 ++ (runE (stepE st ev).1 rest).2)

/-- The updates that carry an actual lyric line (`Line != nil`). -/
def lineUpdates (us : List LyricUpdate) : List LyricUpdate :=
  us.filter (fun u => u.line.isSome)

/-! ### Token lifecycle (`RefreshToken` from auth_usecase.go) -/

/-- `entity.SpotifyAuth`. -/
structure SpotifyAuth where
  clientID : String
  clientSecret : String
  accessToken : String
  refreshToken : String
  expiresIn : Int
  tokenType : String
  scope : String
  expiresAt : Int
deriving DecidableEq, Repr

/-- The parsed body of a successful token-endpoint response. -/
structure TokenResponse where
  accessToken : String
  tokenType : String
  expiresIn : Int
  refreshToken : String
  scope : String
deriving DecidableEq, Repr

/-- `RefreshToken` from auth_usecase.go.  `stored` is the credential record
the repository returns; the HTTP POST / status check / JSON unmarshal chain
is abstracted as `resp`; `now` is `time.Now().Unix()`.  The first component
is the returned value, the second the value passed to `StoreToken` (`none`
when nothing was persisted). -/
def RefreshToken (stored : SpotifyAuth) (resp : Except String TokenResponse)
    (now : Int) : Except String SpotifyAuth × Option SpotifyAuth :=
  if stored.refreshToken = "" then
    (Except.error "no refresh token available", none)
  else
    match resp with
    | Except.error e => (Except.error e, none)
    | Except.ok tr =>
      let newAuth : SpotifyAuth :=
        { clientID := stored.clientID
          clientSecret := stored.clientSecret
          accessToken := tr.accessToken
          tokenType := tr.tokenType
          expiresIn := tr.expiresIn
          scope := tr.scope
          expiresAt := now + tr.expiresIn
          refreshToken := if tr.refreshToken ≠ "" then tr.refreshToken
                          else stored.refreshToken }
      (Except.ok newAuth, some newAuth)

/-! ### Concrete example data used by witnesses and counterexamples -/

/-- The three lines with intervals [0,1000), [1000,3000), [3000,8000) of the
spec's active-line selection example. -/
def exampleLines : List Line :=
  [{ startTimeMs := 0, endTimeMs := 1000, text := "l0" },
   { startTimeMs := 1000, endTimeMs := 3000, text := "l1" },
   { startTimeMs := 3000, endTimeMs := 8000, text := "l2" }]

/-- Snapshot of a track titled "A" at 500ms. -/
def trA : CurrentlyPlaying :=
  { isPlaying := true, progressMs := 500, title := "A", artist := "artA",
    album := "albA", durationMs := 200000 }

/-- Snapshot of a track titled "B" at 0ms. -/
def trB : CurrentlyPlaying :=
  { isPlaying := true, progressMs := 0, title := "B", artist := "artB",
    album := "albB", durationMs := 200000 }

/-- Lyrics for track "A". -/
def lyA : Lyrics :=
  { id := 1, name := "A", artist := "artA", album := "albA", language := "",
    synced := true,
    lines := [{ startTimeMs := 0, endTimeMs := 1000, text := "a1" },
              { startTimeMs := 1000, endTimeMs := 6000, text := "a2" }] }

/-- Lyrics for track "B". -/
def lyB : Lyrics :=
  { id := 2, name := "B", artist := "artB", album := "albB", language := "",
    synced := true,
    lines := [{ startTimeMs := 0, endTimeMs := 1000, text := "b1" },
              { startTimeMs := 1000, endTimeMs := 6000, text := "b2" }] }

/-- The engine state after a successful start on track "A" at 500ms. -/
def stA : EngineState := (initEngine 500 (Except.ok trA) (Except.ok lyA)).1

/-- An lrclib candidate carrying synced lyrics. -/
def rSynced : LibResponse :=
  { id := 7, name := "n", trackName := "t", artistName := "ar", albumName := "al",
    plainLyrics := none, syncedLyrics := some "[00:01.50]Hello\n[00:03.00]World" }

/-- An lrclib candidate with plain lyrics only. -/
def rPlain : LibResponse :=
  { id := 8, name := "p", trackName := "t", artistName := "ar", albumName := "al",
    plainLyrics := some "some plain text", syncedLyrics := none }

/-- The engine state after starting on "A" at 500ms, emitting A's first
line, and then polling a change to track "B" at progress 0. -/
def stDup : EngineState :=
  (runE stA [Ev.wake, Ev.pollTick (Except.ok trB) (Except.ok lyB)]).1

/-- Stored credentials used by witnesses. -/
def storedAuth : SpotifyAuth :=
  { clientID := "cid", clientSecret := "sec", accessToken := "old",
    refreshToken := "rt", expiresIn := 0, tokenType := "Bearer",
    scope := "sc-old", expiresAt := 100 }

/-- Token-endpoint response used by witnesses (no refresh token in it). -/
def tokResp : TokenResponse :=
  { accessToken := "newtok", tokenType := "Bearer", expiresIn := 3600,
    refreshToken := "", scope := "sc-new" }

/-- Adjacent updates always carry different line indices. -/
def DistinctAdj (us : List LyricUpdate) : Prop :=
  List.Chain' (fun u v => u.lineIndex ≠ v.lineIndex) us

/-- `a` is the index of the last update of `ls`, or the sentinel -1 when
`ls` is empty. -/
def lastIdx (ls : List LyricUpdate) (a : Int) : Prop :=
  (ls.getLast? = none ∧ a = -1) ∨ (∃ u, ls.getLast? = some u ∧ u.lineIndex = a)

/-- The close-count invariant: the deferred `close(updateCh)` has run
exactly when the display goroutine has exited. -/
def CloseInv (st : EngineState) : Prop :=
  st.closeCount = if st.displayAlive then 0 else 1

/-! ## Theorems -/

/-- C7: parsing the LRC input "[00:01.50]Hello\n[00:03.00]World" yields
exactly the two lines (1500, "Hello") and (3000, "World"), with the first
end time back-filled to 3000 and the last set to 3000 + 5000 = 8000. -/
theorem lrcParse_example :
    parseLyricLines "[00:01.50]Hello\n[00:03.00]World" =
      [{ startTimeMs := 1500, endTimeMs := 3000, text := "Hello" },
       { startTimeMs := 3000, endTimeMs := 8000, text := "World" }] := by decide

/-- C8 counterexample: the timestamp "0:1.5" does not match the exact
two-digit [mm:ss.xx] pattern, yet the parser does not skip the line
"[0:1.5]X" — it produces a line with startTimeMs 1050.  So "skipped when
the timestamp does not parse under the exact two-digit pattern" is false
of the code. -/
theorem lrcSkip_counterexample :
    exactTwoDigitTimestamp "0:1.5" = false ∧
    parseLyricLines "[0:1.5]X" =
      [{ startTimeMs := 1050, endTimeMs := 6050, text := "X" }] := by decide

/-- C8 (amended): a line that is blank, lacks a leading '[', lacks a
closing ']', or whose timestamp fails Go's `%d:%d.%d` scan (integer, ':',
integer, '.', integer — digit counts unrestricted) is skipped silently,
and subsequent well-formed lines are still parsed. -/
theorem lrcSkip_amended :
    (∀ line : List Char, trimChars line = [] → parseOneLine line = none) ∧
    (∀ line : List Char, line.head? ≠ some '[' → parseOneLine line = none) ∧
    (∀ line : List Char, line.findIdx? (fun c => c = ']') = none →
       parseOneLine line = none) ∧
    (∀ line : List Char, ∀ cb : Nat, line.findIdx? (fun c => c = ']') = some cb →
       sscanfTimestamp ((line.take cb).drop 1) = none → parseOneLine line = none) ∧
    parseLyricLines "garbage\n[0bad\n[aa:bb.cc]x\n[00:01.00]A\n\n[00:02.00]B" =
      [{ startTimeMs := 1000, endTimeMs := 2000, text := "A" },
       { startTimeMs := 2000, endTimeMs := 7000, text := "B" }] := by
  refine ⟨?_, ?_, ?_, ?_, by decide⟩
  · intro line h
    simp [parseOneLine, h]
  · intro line h
    unfold parseOneLine
    split
    · rfl
    · split
      · simp_all
      · rfl
  · intro line h
    unfold parseOneLine
    split
    · rfl
    · split
      · rw [h]
      · rfl
  · intro line cb h1 h2
    unfold parseOneLine
    split
    · rfl
    · split
      · rw [h1]
        rw [List.drop_one] at h2
        simp [h2]
      · rfl

/-- C8 amended witness: the four skip conditions at concrete lines. -/
theorem lrcSkip_amended_witness :
    parseOneLine "   ".data = none ∧ parseOneLine "no bracket".data = none ∧
    parseOneLine "[no close".data = none ∧ parseOneLine "[a:b.c]x".data = none :=
  ⟨lrcSkip_amended.1 _ (by decide),
   lrcSkip_amended.2.1 _ (by decide),
   lrcSkip_amended.2.2.1 _ (by decide),
   lrcSkip_amended.2.2.2.1 _ 6 (by decide) (by decide)⟩

/-- When every remaining line starts strictly after `p`, the scan keeps the
accumulated index (the loop breaks at its first iteration, or the list is
empty). -/
theorem findLineIndexAux_all_after (p : Int) (l : List Line)
    (h : ∀ a ∈ l, p < a.startTimeMs) (i acc : Nat) :
    findLineIndexAux p l i acc = acc := by
  cases l with
  | nil => rfl
  | cons a t =>
    have ha := h a (List.mem_cons_self a t)
    have hnc : ¬ containsP a p := fun hc => absurd hc.1 (by omega)
    simp [findLineIndexAux, hnc, ha]

/-- On a sorted suffix whose `j`-th line is the first containing `p`, the
scan returns `i + j`. -/
theorem findLineIndexAux_first_contains (p : Int) :
    ∀ (l : List Line) (j : Nat) (hj : j < l.length),
      l.Pairwise (fun x y => x.startTimeMs ≤ y.startTimeMs) →
      containsP (l.get ⟨j, hj⟩) p →
      (∀ k (hk : k < l.length), k < j → ¬ containsP (l.get ⟨k, hk⟩) p) →
      ∀ i acc, findLineIndexAux p l i acc = i + j := by
  intro l
  induction l with
  | nil => intro j hj; exact absurd hj (by simp)
  | cons a t ih =>
    intro j hj hsort hcont hfirst i acc
    cases j with
    | zero =>
      simp only [List.get] at hcont
      simp [findLineIndexAux, hcont]
    | succ j' =>
      have hna : ¬ containsP a p := hfirst 0 (by simp) (Nat.succ_pos j')
      have hjt : j' < t.length := by simpa using hj
      have hget : (a :: t).get ⟨j' + 1, hj⟩ = t.get ⟨j', hjt⟩ := rfl
      have hmem : t.get ⟨j', hjt⟩ ∈ t := List.get_mem t j' hjt
      have hle : a.startTimeMs ≤ (t.get ⟨j', hjt⟩).startTimeMs :=
        (List.pairwise_cons.mp hsort).1 _ hmem
      have hps : (t.get ⟨j', hjt⟩).startTimeMs ≤ p := by
        rw [hget] at hcont; exact hcont.1
      have hnb : ¬ p < a.startTimeMs := by omega
      have hrec := ih j' hjt (List.pairwise_cons.mp hsort).2 (hget ▸ hcont)
        (fun k hk hkj => by
          have := hfirst (k + 1) (by simpa using Nat.succ_lt_succ hk) (Nat.succ_lt_succ hkj)
          simpa using this)
        (i + 1) i
      simp only [findLineIndexAux, if_neg hna, if_neg hnb]
      rw [hrec]
      omega

/-- On a sorted suffix none of whose lines contains `p`, with the `j`-th
line the last one starting at or before `p`, the scan returns `i + j`. -/
theorem findLineIndexAux_last_le (p : Int) :
    ∀ (l : List Line) (j : Nat) (hj : j < l.length),
      l.Pairwise (fun x y => x.startTimeMs ≤ y.startTimeMs) →
      (∀ k (hk : k < l.length), ¬ containsP (l.get ⟨k, hk⟩) p) →
      (l.get ⟨j, hj⟩).startTimeMs ≤ p →
      (∀ k (hk : k < l.length), j < k → p < (l.get ⟨k, hk⟩).startTimeMs) →
      ∀ i acc, findLineIndexAux p l i acc = i + j := by
  intro l
  induction l with
  | nil => intro j hj; exact absurd hj (by simp)
  | cons a t ih =>
    intro j hj hsort hnone hle hafter i acc
    cases j with
    | zero =>
      have hna : ¬ containsP a p := hnone 0 (by simp)
      have hla : a.startTimeMs ≤ p := hle
      have hnb : ¬ p < a.startTimeMs := by omega
      simp only [findLineIndexAux, if_neg hna, if_neg hnb]
      have hall : ∀ b ∈ t, p < b.startTimeMs := by
        intro b hb
        obtain ⟨⟨k, hk⟩, hbk⟩ := List.mem_iff_get.mp hb
        have h2 : p < (t.get ⟨k, hk⟩).startTimeMs :=
          hafter (k + 1) (Nat.succ_lt_succ hk) (Nat.succ_pos k)
        exact hbk ▸ h2
      rw [findLineIndexAux_all_after p t hall (i + 1) i]
      omega
    | succ j' =>
      have hna : ¬ containsP a p := hnone 0 (by simp)
      have hjt : j' < t.length := by simpa using hj
      have hget : (a :: t).get ⟨j' + 1, hj⟩ = t.get ⟨j', hjt⟩ := rfl
      have hmem : t.get ⟨j', hjt⟩ ∈ t := List.get_mem t j' hjt
      have hle2 : a.startTimeMs ≤ (t.get ⟨j', hjt⟩).startTimeMs :=
        (List.pairwise_cons.mp hsort).1 _ hmem
      have hps : (t.get ⟨j', hjt⟩).startTimeMs ≤ p := by rw [hget] at hle; exact hle
      have hnb : ¬ p < a.startTimeMs := by omega
      have hrec := ih j' hjt (List.pairwise_cons.mp hsort).2
        (fun k hk => by
          have := hnone (k + 1) (by simpa using Nat.succ_lt_succ hk)
          simpa using this)
        (hget ▸ hle)
        (fun k hk hkj => by
          have := hafter (k + 1) (by simpa using Nat.succ_lt_succ hk) (Nat.succ_lt_succ hkj)
          simpa using this)
        (i + 1) i
      simp only [findLineIndexAux, if_neg hna, if_neg hnb]
      rw [hrec]
      omega

/-- The scan's result is the accumulator or an index of the remaining
list, shifted by `i`. -/
theorem findLineIndexAux_le (p : Int) :
    ∀ (l : List Line) (i acc : Nat),
      findLineIndexAux p l i acc = acc ∨
      ∃ m, m < l.length ∧ findLineIndexAux p l i acc = i + m := by
  intro l
  induction l with
  | nil => intro i acc; left; rfl
  | cons a t ih =>
    intro i acc
    simp only [findLineIndexAux]
    split
    · right; exact ⟨0, by simp, by omega⟩
    · split
      · left; rfl
      · rcases ih (i + 1) i with h | ⟨m, hm, he⟩
        · right; exact ⟨0, by simp, by rw [h]; omega⟩
        · right
          refine ⟨m + 1, by simp; omega, by rw [he]; omega⟩

/-- On a nonempty list the computed index is in bounds. -/
theorem findLineIndex_lt (lines : List Line) (p : Int) (h : lines ≠ []) :
    findLineIndex lines p < lines.length := by
  have hpos : 0 < lines.length := List.length_pos.mpr h
  rcases findLineIndexAux_le p lines 0 0 with h0 | ⟨m, hm, he⟩
  · rw [findLineIndex, h0]; exact hpos
  · rw [findLineIndex, he]; omega

/-- C1: for lines sorted by non-decreasing startTimeMs, the display loop's
line search returns the first line whose interval contains the progress;
when no interval contains it, it returns the last line starting at or
before the progress; on the intervals [0,1000), [1000,3000), [3000,8000)
progress 2500 selects index 1 and progress 9000 selects index 2. -/
theorem lineSearch_spec (lines : List Line) (p : Int)
    (hs : lines.Pairwise (fun x y => x.startTimeMs ≤ y.startTimeMs)) :
    (∀ j (hj : j < lines.length), containsP (lines.get ⟨j, hj⟩) p →
       (∀ k (hk : k < lines.length), k < j → ¬ containsP (lines.get ⟨k, hk⟩) p) →
       findLineIndex lines p = j) ∧
    ((∀ k (hk : k < lines.length), ¬ containsP (lines.get ⟨k, hk⟩) p) →
       ∀ j (hj : j < lines.length), (lines.get ⟨j, hj⟩).startTimeMs ≤ p →
       (∀ k (hk : k < lines.length), j < k → p < (lines.get ⟨k, hk⟩).startTimeMs) →
       findLineIndex lines p = j) ∧
    findLineIndex exampleLines 2500 = 1 ∧ findLineIndex exampleLines 9000 = 2 := by
  refine ⟨?_, ?_, by decide, by decide⟩
  · intro j hj h1 h2
    have := findLineIndexAux_first_contains p lines j hj hs h1 h2 0 0
    simpa [findLineIndex] using this
  · intro h0 j hj h1 h2
    have := findLineIndexAux_last_le p lines j hj hs h0 h1 h2 0 0
    simpa [findLineIndex] using this

/-- C1 witness: the two selections of the spec's example, via the general
theorem at the concrete sorted line list. -/
theorem lineSearch_spec_witness :
    findLineIndex exampleLines 2500 = 1 ∧ findLineIndex exampleLines 9000 = 2 :=
  ⟨(lineSearch_spec exampleLines 2500 (by decide)).1 1 (by decide) (by decide) (by decide),
   (lineSearch_spec exampleLines 9000 (by decide)).2.1 (by decide) 2 (by decide)
     (by decide) (by decide)⟩

/-- C6: RefreshToken fails when the stored refresh token is empty;
otherwise, on a successful token-endpoint response, it returns credentials
preserving clientID/clientSecret, taking accessToken/tokenType/scope and
expiry (now + expires_in) from the response, keeping the old refresh token
when the response's is empty, and the returned value is exactly the value
persisted via the repository. -/
theorem refreshToken_spec (stored : SpotifyAuth) (resp : Except String TokenResponse)
    (tr : TokenResponse) (now : Int) :
    (stored.refreshToken = "" →
       RefreshToken stored resp now = (Except.error "no refresh token available", none)) ∧
    (stored.refreshToken ≠ "" →
       ∃ newAuth : SpotifyAuth,
         RefreshToken stored (Except.ok tr) now = (Except.ok newAuth, some newAuth) ∧
         newAuth.clientID = stored.clientID ∧
         newAuth.clientSecret = stored.clientSecret ∧
         newAuth.accessToken = tr.accessToken ∧
         newAuth.tokenType = tr.tokenType ∧
         newAuth.scope = tr.scope ∧
         newAuth.expiresAt = now + tr.expiresIn ∧
         newAuth.refreshToken =
           (if tr.refreshToken ≠ "" then tr.refreshToken else stored.refreshToken)) := by
  constructor
  · intro h
    simp [RefreshToken, h]
  · intro h
    refine ⟨{ clientID := stored.clientID, clientSecret := stored.clientSecret,
              accessToken := tr.accessToken, tokenType := tr.tokenType,
              expiresIn := tr.expiresIn, scope := tr.scope,
              expiresAt := now + tr.expiresIn,
              refreshToken := if tr.refreshToken ≠ "" then tr.refreshToken
                              else stored.refreshToken },
            ?_, rfl, rfl, rfl, rfl, rfl, rfl, rfl⟩
    simp [RefreshToken, h]

/-- C6 witness: both branches of `refreshToken_spec` at concrete data. -/
theorem refreshToken_spec_witness :
    (RefreshToken { storedAuth with refreshToken := "" } (Except.ok tokResp) 50 =
       (Except.error "no refresh token available", none)) ∧
    (∃ newAuth : SpotifyAuth,
       RefreshToken storedAuth (Except.ok tokResp) 50 = (Except.ok newAuth, some newAuth) ∧
       newAuth.clientID = storedAuth.clientID ∧
       newAuth.clientSecret = storedAuth.clientSecret ∧
       newAuth.accessToken = tokResp.accessToken ∧
       newAuth.tokenType = tokResp.tokenType ∧
       newAuth.scope = tokResp.scope ∧
       newAuth.expiresAt = 50 + tokResp.expiresIn ∧
       newAuth.refreshToken =
         (if tokResp.refreshToken ≠ "" then tokResp.refreshToken
          else storedAuth.refreshToken)) :=
  ⟨(refreshToken_spec { storedAuth with refreshToken := "" } (Except.ok tokResp) tokResp 50).1
      (by decide),
   (refreshToken_spec storedAuth (Except.ok tokResp) tokResp 50).2 (by decide)⟩

/-- A cache hit answers immediately, without touching the network. -/
theorem getLyrics_hit (cache : String → Option Lyrics) (artist title album : String)
    (net : Except String (List LibResponse)) (ly : Lyrics)
    (h : cache (artist ++ "|" ++ title) = some ly) :
    GetLyrics cache artist title album net = (Except.ok ly, cache, false) := by
  simp [GetLyrics, h]

/-- C9: after one successful GetLyrics call for (artist, title), a later
call with the same artist and title — any album, any provider behavior —
returns the identical cached Lyrics value, leaves the cache unchanged, and
performs no network fetch. -/
theorem getLyrics_cache_idempotent (cache : String → Option Lyrics)
    (artist title album1 album2 : String) (net1 net2 : Except String (List LibResponse))
    (ly : Lyrics) (h : (GetLyrics cache artist title album1 net1).1 = Except.ok ly) :
    GetLyrics (GetLyrics cache artist title album1 net1).2.1 artist title album2 net2 =
      (Except.ok ly, (GetLyrics cache artist title album1 net1).2.1, false) := by
  have hkey : (GetLyrics cache artist title album1 net1).2.1 (artist ++ "|" ++ title) =
      some ly := by
    unfold GetLyrics at h ⊢
    cases hc : cache (artist ++ "|" ++ title) with
    | some c =>
      simp only [hc] at h ⊢
      simp only [Except.ok.injEq] at h
      rw [h]
    | none =>
      cases net1 with
      | error e => simp [hc] at h
      | ok rs =>
        cases rs with
        | nil => simp [hc] at h
        | cons r0 rest =>
          simp only [hc, Except.ok.injEq] at h ⊢
          simp [h]
  exact getLyrics_hit _ _ _ _ _ _ hkey

/-- C9 witness: a first fetch through the provider, then a second call with
a different album and a failing provider still answers from the cache. -/
theorem getLyrics_cache_idempotent_witness :
    GetLyrics (GetLyrics (fun _ => none) "ar" "ti" "alb1" (Except.ok [rSynced])).2.1
        "ar" "ti" "alb2" (Except.error "provider down") =
      (Except.ok (buildLyrics rSynced),
       (GetLyrics (fun _ => none) "ar" "ti" "alb1" (Except.ok [rSynced])).2.1, false) :=
  getLyrics_cache_idempotent (fun _ => none) "ar" "ti" "alb1" "alb2"
    (Except.ok [rSynced]) (Except.error "provider down") (buildLyrics rSynced) rfl

/-- C10: a cache miss answered by candidates none of which carries synced
lyrics succeeds with a Lyrics value that is unsynced and has no lines (the
plain lyrics are never parsed), and a display-loop wake-up holding such a
value emits exactly the "No lyrics to display." text update. -/
theorem unsyncedCandidate_spec (cache : String → Option Lyrics)
    (artist title album : String) (r0 : LibResponse) (rest : List LibResponse)
    (hmiss : cache (artist ++ "|" ++ title) = none)
    (hnone : ∀ r ∈ r0 :: rest, r.syncedLyrics = none) :
    ∃ ly : Lyrics,
      (GetLyrics cache artist title album (Except.ok (r0 :: rest))).1 = Except.ok ly ∧
      ly.synced = false ∧ ly.lines = [] ∧
      (∀ st : EngineState, st.displayAlive = true → st.pending = true →
         st.lyr = some ly → (stepE st Ev.wake).2 = [noLyricsUpdate]) := by
  have hfind : (r0 :: rest).find? (fun r => r.syncedLyrics.isSome) = none := by
    rw [List.find?_eq_none]
    intro r hr
    simp [hnone r hr]
  have h0 : r0.syncedLyrics = none := hnone r0 (List.mem_cons_self r0 rest)
  refine ⟨buildLyrics r0, ?_, ?_, ?_, ?_⟩
  · simp [GetLyrics, hmiss, hfind]
  · simp [buildLyrics, h0]
  · simp [buildLyrics, h0]
  · intro st h1 h2 h3
    simp [stepE, h1, h2, h3, buildLyrics, h0]

/-- C10 witness: a provider answer with one plain-lyrics-only candidate,
and a concrete display state holding the resulting empty lyric set. -/
theorem unsyncedCandidate_spec_witness :
    ∃ ly : Lyrics,
      (GetLyrics (fun _ => none) "ar" "ti" "al" (Except.ok [rPlain])).1 = Except.ok ly ∧
      ly.synced = false ∧ ly.lines = [] ∧
      (∀ st : EngineState, st.displayAlive = true → st.pending = true →
         st.lyr = some ly → (stepE st Ev.wake).2 = [noLyricsUpdate]) :=
  unsyncedCandidate_spec (fun _ => none) "ar" "ti" "al" rPlain [] rfl
    (by intro r hr; simp at hr; rw [hr]; rfl)

/-- Splitting a run at a list append. -/
theorem runE_append (st : EngineState) (l1 l2 : List Ev) :
    (runE st (l1 ++ l2)).1 = (runE (runE st l1).1 l2).1 ∧
    (runE st (l1 ++ l2)).2 = (runE st l1).2 ++ (runE (runE st l1).1 l2).2 := by
  induction l1 generalizing st with
  | nil => simp [runE]
  | cons ev t ih =>
    simp only [List.cons_append, runE, List.append_eq]
    exact ⟨(ih (stepE st ev).1).1, by rw [(ih (stepE st ev).1).2, List.append_assoc]⟩

/-- Cancellation is never undone by a step. -/
theorem stepE_cancelled_mono (st : EngineState) (ev : Ev) (h : st.cancelled = true) :
    (stepE st ev).1.cancelled = true := by
  cases ev <;> simp only [stepE] <;> (repeat' split) <;> first | exact h | rfl

/-- A dead display goroutine stays dead. -/
theorem stepE_displayDead_mono (st : EngineState) (ev : Ev) (h : st.displayAlive = false) :
    (stepE st ev).1.displayAlive = false := by
  cases ev <;> simp only [stepE] <;> (repeat' split) <;> first | exact h | rfl

/-- A step either leaves `closeCount` and `displayAlive` unchanged, or (the
display goroutine exiting) increments the count while the goroutine was
alive and leaves it dead. -/
theorem stepE_close_shape (st : EngineState) (ev : Ev) :
    ((stepE st ev).1.closeCount = st.closeCount ∧
       (stepE st ev).1.displayAlive = st.displayAlive) ∨
    (st.displayAlive = true ∧ (stepE st ev).1.closeCount = st.closeCount + 1 ∧
       (stepE st ev).1.displayAlive = false) := by
  cases ev <;> simp only [stepE] <;> (repeat' split) <;>
    first
    | exact Or.inl ⟨rfl, rfl⟩
    | exact Or.inl ⟨trivial, trivial⟩
    | (rename_i hcond
       have h2 := hcond
       simp only [Bool.and_eq_true] at h2
       exact Or.inr ⟨h2.1, rfl, rfl⟩)

/-- Every step preserves the close-count invariant. -/
theorem stepE_closeInv (st : EngineState) (ev : Ev) (h : CloseInv st) :
    CloseInv (stepE st ev).1 := by
  unfold CloseInv at *
  rcases stepE_close_shape st ev with ⟨h1, h2⟩ | ⟨hd, h1, h2⟩
  · rw [h1, h2]; exact h
  · rw [h1, h2]
    rw [hd] at h
    simp at h
    simp [h]

/-- After cancellation has fired, processing `displayExit` leaves the
display goroutine dead (exiting it if it was still alive). -/
theorem stepE_displayExit_dead (st : EngineState) (h : st.cancelled = true) :
    (stepE st Ev.displayExit).1.displayAlive = false := by
  simp only [stepE]
  split
  · rfl
  · rename_i hcond
    simp only [Bool.and_eq_true] at hcond
    cases hd : st.displayAlive with
    | false => rfl
    | true => exact absurd ⟨hd, h⟩ hcond

/-- Runs preserve the close-count invariant. -/
theorem runE_closeInv (evs : List Ev) : ∀ st : EngineState, CloseInv st →
    CloseInv (runE st evs).1 := by
  induction evs with
  | nil => intro st h; simpa [runE] using h
  | cons ev rest ih =>
    intro st h
    simp only [runE]
    exact ih _ (stepE_closeInv st ev h)

/-- Runs never undo cancellation. -/
theorem runE_cancelled_mono (evs : List Ev) : ∀ st : EngineState, st.cancelled = true →
    (runE st evs).1.cancelled = true := by
  induction evs with
  | nil => intro st h; simpa [runE] using h
  | cons ev rest ih =>
    intro st h
    simp only [runE]
    exact ih _ (stepE_cancelled_mono st ev h)

/-- Runs never revive the display goroutine. -/
theorem runE_displayDead_mono (evs : List Ev) : ∀ st : EngineState,
    st.displayAlive = false → (runE st evs).1.displayAlive = false := by
  induction evs with
  | nil => intro st h; simpa [runE] using h
  | cons ev rest ih =>
    intro st h
    simp only [runE]
    exact ih _ (stepE_displayDead_mono st ev h)

/-- C5 counterexample: from a started engine, after the cancellation event
fires, a poll iteration that had already passed its select (Go's select
picks among ready cases, so a tick can still win against a fired context)
writes a further error update to the output channel — refuting "no further
LyricUpdate is ever written after cancellation fires". -/
theorem cancelWrite_counterexample :
    (stepE stA Ev.cancel).1.cancelled = true ∧
    (runE (stepE stA Ev.cancel).1
        [Ev.pollTick (Except.error "network down") (Except.error "")]).2 =
      [trackErrUpdate "network down"] := by decide

/-- C5 (amended): along every schedule the output channel is closed at most
once, and on any schedule in which cancellation fires and the display
goroutine later observes it, the channel is closed exactly once — but
writes by the poll goroutine may still occur between cancellation and the
loops observing it. -/
theorem cancelClose_amended (startMs : Int) (tr : CurrentlyPlaying)
    (f0 : Except String Lyrics) (evs t1 t2 t3 : List Ev) :
    (runE (initEngine startMs (Except.ok tr) f0).1 evs).1.closeCount ≤ 1 ∧
    (runE (initEngine startMs (Except.ok tr) f0).1
       (t1 ++ Ev.cancel :: (t2 ++ Ev.displayExit :: t3))).1.closeCount = 1 := by
  have h0 : CloseInv (initEngine startMs (Except.ok tr) f0).1 := by
    cases f0 <;> simp [initEngine, CloseInv]
  constructor
  · have hinv := runE_closeInv evs _ h0
    unfold CloseInv at hinv
    split at hinv <;> omega
  · rw [(runE_append (initEngine startMs (Except.ok tr) f0).1 t1
      (Ev.cancel :: (t2 ++ Ev.displayExit :: t3))).1]
    simp only [runE]
    rw [(runE_append (stepE (runE (initEngine startMs (Except.ok tr) f0).1 t1).1
      Ev.cancel).1 t2 (Ev.displayExit :: t3)).1]
    simp only [runE]
    have hc1 : CloseInv (runE (initEngine startMs (Except.ok tr) f0).1 t1).1 :=
      runE_closeInv t1 _ h0
    have hcanc2 : (stepE (runE (initEngine startMs (Except.ok tr) f0).1 t1).1
        Ev.cancel).1.cancelled = true := by simp [stepE]
    have hc2 := stepE_closeInv _ Ev.cancel hc1
    have hc3 := runE_closeInv t2 _ hc2
    have hcanc3 := runE_cancelled_mono t2 _ hcanc2
    have hc4 := stepE_closeInv _ Ev.displayExit hc3
    have hdead4 := stepE_displayExit_dead _ hcanc3
    have hc5 := runE_closeInv t3 _ hc4
    have hdead5 := runE_displayDead_mono t3 _ hdead4
    unfold CloseInv at hc5
    rw [hdead5] at hc5
    simpa using hc5

/-- C3 counterexample: a failure of the very first snapshot fetch emits the
error update and then terminates the engine, running the deferred close —
refuting "no fetch failure terminates the loops or closes the output
channel". -/
theorem initialFetchFailure_counterexample :
    (initEngine 0 (Except.error "boom") (Except.error "")).1.closeCount = 1 ∧
    (initEngine 0 (Except.error "boom") (Except.error "")).1.pollAlive = false ∧
    (initEngine 0 (Except.error "boom") (Except.error "")).1.displayAlive = false ∧
    (initEngine 0 (Except.error "boom") (Except.error "")).2 = [trackErrUpdate "boom"] := by
  decide

/-- C3 (amended): a snapshot-fetch failure inside the poll loop emits an
IsError update and leaves the whole engine state unchanged (polling
continues, nothing closes); the failure of the initial snapshot fetch at
startup instead emits the IsError update and terminates, closing the
channel. -/
theorem fetchFailure_amended :
    (∀ st : EngineState, ∀ e : String, ∀ f : Except String Lyrics,
       st.pollAlive = true →
       stepE st (Ev.pollTick (Except.error e) f) = (st, [trackErrUpdate e])) ∧
    (∀ e : String, (trackErrUpdate e).isError = true) ∧
    (∀ startMs : Int, ∀ e : String, ∀ f : Except String Lyrics,
       (initEngine startMs (Except.error e) f).2 = [trackErrUpdate e] ∧
       (initEngine startMs (Except.error e) f).1.closeCount = 1 ∧
       (initEngine startMs (Except.error e) f).1.pollAlive = false) := by
  refine ⟨?_, fun e => rfl, fun startMs e f => ⟨rfl, rfl, rfl⟩⟩
  intro st e f h
  simp [stepE, h]

/-- C3 amended witness: a poll-loop snapshot failure at the started engine
leaves the state untouched and emits the error update. -/
theorem fetchFailure_amended_witness :
    stepE stA (Ev.pollTick (Except.error "x") (Except.error "")) =
      (stA, [trackErrUpdate "x"]) :=
  fetchFailure_amended.1 stA "x" (Except.error "") (by decide)

/-- C2 counterexample: starting on track "A" at 500ms (line 0 emitted,
activeIndex 0), then polling track "B" at progress 0 fetches B's lyrics
(fetch count 2) and computes line index 0 — but the following wake-up
emits nothing, because the line-index state is not discarded on track
change: the whole run emits only A's line.  This refutes "discards the
previous active-line index state so that index 0 of B's lyrics is
emitted". -/
theorem trackChange_counterexample :
    (runE stA [Ev.wake, Ev.pollTick (Except.ok trB) (Except.ok lyB), Ev.wake]).2 =
      [lineUpdateOf lyA 0 { startTimeMs := 0, endTimeMs := 1000, text := "a1" }] ∧
    (runE stA [Ev.wake, Ev.pollTick (Except.ok trB) (Except.ok lyB), Ev.wake]).1.fetchCount
      = 2 ∧
    findLineIndex lyB.lines 0 = 0 := by decide

/-- C2 (amended): a poll cycle whose snapshot title equals the last-seen
title performs no lyric fetch, and one whose title differs performs exactly
one (so titles A then B give exactly two fetches, counting the startup
fetch); but the active-line index state is retained across the track
change, so the new track's computed line is emitted at the next wake-up
only if its index differs from the last emitted one. -/
theorem trackChange_amended :
    (∀ st : EngineState, ∀ tr : CurrentlyPlaying, ∀ f : Except String Lyrics,
       st.pollAlive = true → tr.title = st.currentSong →
       (stepE st (Ev.pollTick (Except.ok tr) f)).1.fetchCount = st.fetchCount) ∧
    (∀ st : EngineState, ∀ tr : CurrentlyPlaying, ∀ f : Except String Lyrics,
       st.pollAlive = true → tr.title ≠ st.currentSong →
       (stepE st (Ev.pollTick (Except.ok tr) f)).1.fetchCount = st.fetchCount + 1) ∧
    stA.fetchCount = 1 ∧
    (runE stA [Ev.wake, Ev.pollTick (Except.ok trB) (Except.ok lyB), Ev.wake]).1.fetchCount
      = 2 ∧
    (∀ st : EngineState, ∀ ly : Lyrics, st.displayAlive = true → st.pending = true →
       st.lyr = some ly → ly.lines.isEmpty = false →
       (findLineIndex ly.lines st.progressMs : Int) = st.activeIndex →
       (stepE st Ev.wake).2 = []) := by
  refine ⟨?_, ?_, by decide, by decide, ?_⟩
  · intro st tr f h1 h2
    simp [stepE, h1, h2]
  · intro st tr f h1 h2
    cases f <;> simp [stepE, h1, h2]
  · intro st ly h1 h2 h3 h4 h5
    simp [stepE, h1, h2, h3, h4, h5]

/-- C2 amended witness: the fetch-count behavior at the started engine
(equal title "A", then changed title "B"), and the suppressed wake-up in
the post-track-change state. -/
theorem trackChange_amended_witness :
    (stepE stA (Ev.pollTick (Except.ok trA) (Except.ok lyA))).1.fetchCount = stA.fetchCount ∧
    (stepE stA (Ev.pollTick (Except.ok trB) (Except.ok lyB))).1.fetchCount =
      stA.fetchCount + 1 ∧
    (stepE stDup Ev.wake).2 = [] :=
  ⟨trackChange_amended.1 stA trA (Except.ok lyA) (by decide) (by decide),
   trackChange_amended.2.1 stA trB (Except.ok lyB) (by decide) (by decide),
   trackChange_amended.2.2.2.2 stDup lyB (by decide) (by decide) (by decide)
     (by decide) (by decide)⟩

/-- `lineUpdates` distributes over append. -/
theorem lineUpdates_append (a b : List LyricUpdate) :
    lineUpdates (a ++ b) = lineUpdates a ++ lineUpdates b := by
  simp [lineUpdates]

/-- Each step either emits no line update and keeps `activeIndex`, or emits
exactly one line update whose index differs from `activeIndex` and becomes
the new `activeIndex`. -/
theorem stepE_emits (st : EngineState) (ev : Ev) :
    (lineUpdates (stepE st ev).2 = [] ∧ (stepE st ev).1.activeIndex = st.activeIndex) ∨
    (∃ u : LyricUpdate, (stepE st ev).2 = [u] ∧ u.line.isSome = true ∧
       u.lineIndex ≠ st.activeIndex ∧ (stepE st ev).1.activeIndex = u.lineIndex) := by
  cases ev with
  | pollTick snap fetch =>
    left
    cases snap <;> cases fetch <;> simp only [stepE] <;> (repeat' split) <;>
      first
      | exact ⟨rfl, rfl⟩
      | exact ⟨trivial, trivial⟩
  | wake =>
    cases hl : st.lyr with
    | none =>
      left
      simp only [stepE, hl]
      (repeat' split) <;> first | exact ⟨rfl, rfl⟩ | exact ⟨trivial, trivial⟩
    | some ly =>
      simp only [stepE, hl]
      (repeat' split) <;>
        first
        | exact Or.inl ⟨rfl, rfl⟩
        | exact Or.inl ⟨trivial, trivial⟩
        | (rename_i hne hlt
           exact Or.inr ⟨lineUpdateOf ly (findLineIndex ly.lines st.progressMs)
             (ly.lines.get ⟨findLineIndex ly.lines st.progressMs, hlt⟩),
             rfl, rfl, hne, rfl⟩)
  | timerSignal => left; exact ⟨rfl, rfl⟩
  | cancel => left; exact ⟨rfl, rfl⟩
  | pollExit =>
    left
    simp only [stepE]
    (repeat' split) <;> first | exact ⟨rfl, rfl⟩ | exact ⟨trivial, trivial⟩
  | displayExit =>
    left
    simp only [stepE]
    (repeat' split) <;> first | exact ⟨rfl, rfl⟩ | exact ⟨trivial, trivial⟩

/-- One step preserves the no-adjacent-duplicate invariant together with
the last-emitted-index bookkeeping. -/
theorem idxInv_step (st : EngineState) (ev : Ev) (us : List LyricUpdate)
    (h1 : DistinctAdj (lineUpdates us)) (h2 : lastIdx (lineUpdates us) st.activeIndex) :
    DistinctAdj (lineUpdates (us ++ (stepE st ev).2)) ∧
    lastIdx (lineUpdates (us ++ (stepE st ev).2)) (stepE st ev).1.activeIndex := by
  rcases stepE_emits st ev with ⟨hemp, hact⟩ | ⟨u, hout, hsome, hne, hact⟩
  · rw [lineUpdates_append, hemp, List.append_nil, hact]
    exact ⟨h1, h2⟩
  · have hone : lineUpdates (stepE st ev).2 = [u] := by
      rw [hout]
      simp [lineUpdates, hsome]
    rw [lineUpdates_append, hone, hact]
    constructor
    · rw [DistinctAdj] at h1 ⊢
      rw [List.chain'_append]
      refine ⟨h1, List.chain'_singleton u, ?_⟩
      intro x hx y hy
      rcases h2 with ⟨hnone, _⟩ | ⟨w, hw, hwA⟩
      · rw [hnone] at hx
        simp at hx
      · rw [hw] at hx
        simp at hx hy
        subst hx
        subst hy
        rw [hwA]
        exact fun hh => hne hh.symm
    · right
      exact ⟨u, by rw [List.getLast?_concat], rfl⟩

/-- A whole run preserves the invariant. -/
theorem idxInv_run (evs : List Ev) : ∀ (st : EngineState) (us : List LyricUpdate),
    DistinctAdj (lineUpdates us) → lastIdx (lineUpdates us) st.activeIndex →
    DistinctAdj (lineUpdates (us ++ (runE st evs).2)) ∧
    lastIdx (lineUpdates (us ++ (runE st evs).2)) (runE st evs).1.activeIndex := by
  induction evs with
  | nil =>
    intro st us h1 h2
    simpa [runE] using ⟨h1, h2⟩
  | cons ev rest ih =>
    intro st us h1 h2
    have hstep := idxInv_step st ev us h1 h2
    have hrun := ih (stepE st ev).1 (us ++ (stepE st ev).2) hstep.1 hstep.2
    simp only [runE]
    rw [List.append_assoc] at hrun
    exact hrun

/-- C4: along every schedule from engine start, adjacent non-error line
updates never carry the same index; `activeIndex` starts at the sentinel
-1 before the first wake-up; a wake-up whose computed index equals the
last-emitted index emits nothing; and in the initial -1 state a wake-up
with nonempty lyrics always emits one line update (any computed index,
including 0, differs from -1). -/
theorem noDuplicateEmission (startMs : Int) (snap0 : Except String CurrentlyPlaying)
    (fetch0 : Except String Lyrics) (evs : List Ev) :
    DistinctAdj (lineUpdates ((initEngine startMs snap0 fetch0).2 ++
       (runE (initEngine startMs snap0 fetch0).1 evs).2)) ∧
    (initEngine startMs snap0 fetch0).1.activeIndex = -1 ∧
    (∀ st : EngineState, ∀ ly : Lyrics, st.displayAlive = true → st.pending = true →
       st.lyr = some ly → ly.lines.isEmpty = false →
       (findLineIndex ly.lines st.progressMs : Int) = st.activeIndex →
       (stepE st Ev.wake).2 = []) ∧
    (∀ st : EngineState, ∀ ly : Lyrics, st.displayAlive = true → st.pending = true →
       st.lyr = some ly → ly.lines.isEmpty = false → st.activeIndex = -1 →
       ∃ u : LyricUpdate, (stepE st Ev.wake).2 = [u] ∧ u.line.isSome = true) := by
  have hinit2 : lineUpdates (initEngine startMs snap0 fetch0).2 = [] := by
    cases snap0 with
    | error e => simp [initEngine, lineUpdates, trackErrUpdate]
    | ok tr =>
      cases fetch0 with
      | error e => simp [initEngine, lineUpdates, initLyricsErrUpdate]
      | ok ly => simp [initEngine, lineUpdates]
  have hinitA : (initEngine startMs snap0 fetch0).1.activeIndex = -1 := by
    cases snap0 with
    | error e => rfl
    | ok tr => cases fetch0 <;> rfl
  refine ⟨?_, hinitA, ?_, ?_⟩
  · have hrun := idxInv_run evs (initEngine startMs snap0 fetch0).1
      (initEngine startMs snap0 fetch0).2
      (by rw [hinit2]; exact List.chain'_nil)
      (by rw [hinit2, hinitA]; exact Or.inl ⟨rfl, rfl⟩)
    exact hrun.1
  · intro st ly h1 h2 h3 h4 h5
    simp [stepE, h1, h2, h3, h4, h5]
  · intro st ly h1 h2 h3 h4 h5
    have hnil : ly.lines ≠ [] := by
      intro hn
      rw [hn] at h4
      simp at h4
    have hlth : findLineIndex ly.lines st.progressMs < ly.lines.length :=
      findLineIndex_lt ly.lines st.progressMs hnil
    have hne : ((findLineIndex ly.lines st.progressMs : Nat) : Int) ≠ st.activeIndex := by
      rw [h5]
      have hge := Int.natCast_nonneg (findLineIndex ly.lines st.progressMs)
      omega
    refine ⟨lineUpdateOf ly (findLineIndex ly.lines st.progressMs)
        (ly.lines.get ⟨findLineIndex ly.lines st.progressMs, hlth⟩), ?_, rfl⟩
    simp [stepE, h1, h2, h3, h4, hne, hlth]

/-- C4 witness: the invariant along a concrete run with a track change, the
suppressed wake-up in the duplicate-index state, and the guaranteed first
emission from the sentinel state. -/
theorem noDuplicateEmission_witness :
    DistinctAdj (lineUpdates ((initEngine 500 (Except.ok trA) (Except.ok lyA)).2 ++
       (runE (initEngine 500 (Except.ok trA) (Except.ok lyA)).1
         [Ev.wake, Ev.pollTick (Except.ok trB) (Except.ok lyB), Ev.wake]).2)) ∧
    (stepE stDup Ev.wake).2 = [] ∧
    (∃ u : LyricUpdate, (stepE stA Ev.wake).2 = [u] ∧ u.line.isSome = true) :=
  ⟨(noDuplicateEmission 500 (Except.ok trA) (Except.ok lyA)
      [Ev.wake, Ev.pollTick (Except.ok trB) (Except.ok lyB), Ev.wake]).1,
   (noDuplicateEmission 500 (Except.ok trA) (Except.ok lyA) []).2.2.1 stDup lyB
     (by decide) (by decide) (by decide) (by decide) (by decide),
   (noDuplicateEmission 500 (Except.ok trA) (Except.ok lyA) []).2.2.2 stA lyA
     (by decide) (by decide) (by decide) (by decide) (by decide)⟩

end Sprt
